import Mathlib

-- Shallow embedding of the q-routing simulator (Boyan–Littman).
-- Sources embedded: classes.py (Hop, QTable, Packet, Node), simulation.py
-- (the two-phase tick engine), metrics.py (delivered registry and averages),
-- and script.py (the legacy variant with triplet-keyed Q-tables).
-- Python floats carrying tick arithmetic are modelled as rationals (ℚ),
-- integer ticks as Int, node identities as Nat.  Mutable object graphs are
-- modelled as a list of node records updated by id; the pseudo-random choice
-- of `random.choice` is modelled as indexing by the head of an explicit
-- stream of draws (a fixed seed fixes the stream).

/-- Python exceptions the embedded fragment can raise: `valueError` models
`ValueError` (e.g. `min()` on an empty sequence), `indexError` models
`IndexError` (indexing an empty list).  The code defines no exception class
of its own; in particular no `ConfigurationError` exists anywhere. -/
inductive PyExn where
  | valueError : PyExn
  | indexError : PyExn
deriving DecidableEq

/-- Hop record from classes.py: one realized traversal of a link. -/
structure Hop where
  from_id : Nat
  to_id : Nat
  sent : Int
  received : Int
deriving DecidableEq

/-- Packet record from classes.py (the current variant, with the four
timestamp fields; `time_in_queue` is kept because the dataclass still has
it, marked deprecated in the source). -/
structure Packet where
  origin : Nat
  destination : Nat
  route : List Hop
  reached_destination : Bool
  time_in_queue : Int
  queue_entry_time : Int
  departure_time : Int
  arrival_time : Int
  id : Nat
deriving DecidableEq

/-- QTable from classes.py: a dict keyed by (destination, neighbor),
modelled as an association list with unique keys (dict semantics:
`set` replaces the value of an existing key, otherwise adds the key). -/
structure QTable where
  q_values : List ((Nat × Nat) × ℚ)
deriving DecidableEq

/-- `QTable.get`: `self.q_values.get((destination, neighbor), 0.0)`. -/
def QTable.get (qt : QTable) (destination neighbor : Nat) : ℚ :=
  (qt.q_values.lookup (destination, neighbor)).getD 0

/-- `QTable.set`: `self.q_values[(destination, neighbor)] = value`. -/
def QTable.set (qt : QTable) (destination neighbor : Nat) (value : ℚ) : QTable :=
  if qt.q_values.any (fun e => e.1 == (destination, neighbor)) then
    ⟨qt.q_values.map (fun e => if e.1 == (destination, neighbor) then (e.1, value) else e)⟩
  else
    ⟨qt.q_values ++ [((destination, neighbor), value)]⟩

/-- `QTable.get_min_for_destination`: minimum stored value over all keys with
the given destination, `0.0` when no such key exists. -/
def QTable.get_min_for_destination (qt : QTable) (destination : Nat) : ℚ :=
  let relevant := (qt.q_values.filter (fun e => e.1.1 == destination)).map (fun e => e.2)
  match relevant with
  | [] => 0
  | v :: vs => vs.foldl min v

/-- Node from classes.py.  Neighbor references are modelled by node ids
resolved against the simulation state's node list. -/
structure Node where
  id : Nat
  neighbors : List Nat
  queue : List Packet
  q_table : QTable
  pending_requests : List (Packet × Nat)
  learning_rate : ℚ
deriving DecidableEq

/-- The mutable world of simulation.py: the node list, the module-global
`time`, the metrics module's `delivered_packets` registry, and the stream of
pseudo-random draws that `random.choice` consumes. -/
structure SimState where
  nodes : List Node
  time : Int
  delivered : List Packet
  rng : List Nat
deriving DecidableEq

/-- Dereference a node id (Python: follow an object reference). -/
def SimState.getNode (s : SimState) (i : Nat) : Option Node :=
  s.nodes.find? (fun nd => nd.id == i)

/-- Update the node with the given id in place (Python: mutate the object
the reference points to). -/
def updNode (ns : List Node) (i : Nat) (f : Node → Node) : List Node :=
  ns.map (fun nd => if nd.id == i then f nd else nd)

/-- `Metrics.on_delivered` from metrics.py:
`self.delivered_packets.append(packet)`. -/
def Metrics.on_delivered (delivered : List Packet) (packet : Packet) : List Packet :=
  delivered ++ [packet]

/-- `Metrics.delivery_time` from metrics.py:
`int(p.route[-1].received - p.route[0].sent)`, `0` for an empty route. -/
def Metrics.delivery_time (p : Packet) : Int :=
  match p.route with
  | [] => 0
  | h :: t => (t.getLastD h).received - h.sent

/-- `Metrics.average_delivery_time_so_far` from metrics.py: mean of
`delivery_time` over the delivered packets that have a route, `0.0` when
there are none. -/
def Metrics.average_delivery_time_so_far (delivered : List Packet) : ℚ :=
  let delivered_with_route := delivered.filter (fun p => !p.route.isEmpty)
  if delivered_with_route.isEmpty then 0
  else (((delivered_with_route.map Metrics.delivery_time).sum : Int) : ℚ) /
    (delivered_with_route.length : ℚ)

/-- The learning block of `Node.receive` (the body of
`if previous_node is not None and packet.route:`): compute the three
intervals q, s, t and nudge the **sender's** Q-table entry for
(packet.destination, selfId) by `η·((q+s+t) − old)`.  The packet passed
here already carries the freshly stamped `arrival_time`. -/
def qUpdate (s : SimState) (selfId prevId : Nat) (packet : Packet) : SimState :=
  if packet.route.isEmpty then s
  else
    match s.getNode selfId, s.getNode prevId with
    | some selfNd, some prevNd =>
      let q : Int := packet.departure_time - packet.queue_entry_time
      let str : Int := packet.arrival_time - packet.departure_time
      let t : ℚ := selfNd.q_table.get_min_for_destination packet.destination
      let old_estimate : ℚ := prevNd.q_table.get packet.destination selfId
      let new_experience : ℚ := (q : ℚ) + (str : ℚ) + t
      let delta : ℚ := prevNd.learning_rate * (new_experience - old_estimate)
      let new_value : ℚ := old_estimate + delta
      let ns := updNode s.nodes prevId
        (fun nd => {nd with q_table := nd.q_table.set packet.destination selfId new_value})
      {s with nodes := ns}
    | _, _ => s

/-- `Node.receive` from classes.py.  `selfId` is the receiving node,
`previous_node` the sender reference (if any).  Mirrors the source order:
stamp `arrival_time`; if a sender was given and the route is non-empty,
run `qUpdate` against the sender's table; then either deliver (set the
flag, append the hop again, register with metrics) or stamp
`queue_entry_time` and enqueue here. -/
def Node.receive (s : SimState) (selfId : Nat) (hop : Hop) (packet : Packet)
    (current_time : Int) (previous_node : Option Nat) : SimState :=
  let packet := {packet with arrival_time := current_time}
  let s1 :=
    match previous_node with
    | none => s
    | some prevId => qUpdate s selfId prevId packet
  if selfId == packet.destination then
    let packet := {packet with reached_destination := true, route := packet.route ++ [hop]}
    {s1 with delivered := Metrics.on_delivered s1.delivered packet}
  else
    let packet := {packet with queue_entry_time := current_time}
    {s1 with nodes := updNode s1.nodes selfId (fun nd => {nd with queue := nd.queue ++ [packet]})}

/-- `Node.plan_send` from classes.py: stage a (packet, next node) pair. -/
def Node.plan_send (nd : Node) (packet : Packet) (nextId : Nat) : Node :=
  {nd with pending_requests := nd.pending_requests ++ [(packet, nextId)]}

/-- The body of the loop in `Node.execute_pending_requests`: build the hop
(sent = now, received = now + 1), stamp the departure tick, append the hop to
the route, and hand the packet to the next node's `receive` with a reference
to the sending node. -/
def processSend (selfId : Nat) (current_time : Int) (s : SimState) (pr : Packet × Nat) : SimState :=
  let packet := pr.1
  let nextId := pr.2
  let hop : Hop := ⟨selfId, nextId, current_time, current_time + 1⟩
  let packet := {packet with departure_time := current_time, route := packet.route ++ [hop]}
  Node.receive s nextId hop packet (current_time + 1) (some selfId)

/-- `Node.execute_pending_requests` from classes.py: process every planned
send, then clear the planned-sends list.  (The clear is the last statement of
the method, outside any try/finally.) -/
def Node.execute_pending_requests (s : SimState) (selfId : Nat) (current_time : Int) : SimState :=
  match s.getNode selfId with
  | none => s
  | some nd =>
    let s1 := nd.pending_requests.foldl (processSend selfId current_time) s
    {s1 with nodes := updNode s1.nodes selfId (fun nd => {nd with pending_requests := []})}

/-- Numeric tolerance from simulation.py's `tick`: `epsilon = 1e-6`. -/
def epsilon : ℚ := 1 / 1000000

/-- Python's `min` on a list of floats (first operand wins ties).  The
empty-list default value is never consulted: every caller raises
`ValueError` on the empty list before reducing, exactly as Python's `min`
does. -/
def pyMin (l : List ℚ) : ℚ :=
  match l with
  | [] => 0
  | v :: vs => vs.foldl min v

/-- `best_candidates` from simulation.py's `tick`:
`[n for n, q in zip(node.neighbors, q_values) if abs(q - min_q) < epsilon]`. -/
def bestCandidates (qt : QTable) (destination : Nat) (neighbors : List Nat) : List Nat :=
  let q_values := neighbors.map (fun n => qt.get destination n)
  let min_q := pyMin q_values
  ((neighbors.zip q_values).filter (fun nq => |nq.2 - min_q| < epsilon)).map (fun nq => nq.1)

/-- The next-hop selection from simulation.py's `tick`: score the neighbors,
take `min` (ValueError on a neighbor-less node), keep the candidates within
`epsilon` of the minimum, and pick `random.choice(best_candidates)` when more
than one ties, `best_candidates[0]` otherwise.  `random.choice(lst)` is
modelled as `lst[r % len(lst)]` where `r` is the next draw of the stream,
which the choice consumes. -/
def chooseNextE (qt : QTable) (destination : Nat) (neighbors : List Nat) (rng : List Nat) :
    Except PyExn (Nat × List Nat) :=
  let q_values := neighbors.map (fun n => qt.get destination n)
  if q_values.isEmpty then .error .valueError
  else
    let best := bestCandidates qt destination neighbors
    if 1 < best.length then
      .ok (best.getD ((rng.headD 0) % best.length) 0, rng.tail)
    else
      match best with
      | [] => .error .indexError
      | b :: _ => .ok (b, rng)

/-- Phase 1 of simulation.py's `tick` for one node: pop the queue head,
discard it if already delivered, otherwise choose the next hop by minimum
Q-value and stage the send with `plan_send`. -/
def phase1Step (s : SimState) (i : Nat) : Except PyExn SimState :=
  match s.getNode i with
  | none => .ok s
  | some node =>
    match node.queue with
    | [] => .ok s
    | packet :: rest =>
      if packet.reached_destination then
        .ok {s with nodes := updNode s.nodes i (fun nd => {nd with queue := rest})}
      else
        match chooseNextE node.q_table packet.destination node.neighbors s.rng with
        | .error e => .error e
        | .ok (next, rng') =>
          let ns := updNode s.nodes i
            (fun nd => Node.plan_send {nd with queue := rest} packet next)
          .ok {s with rng := rng', nodes := ns}

/-- `tick` from simulation.py: decide for every node, then execute every
node's pending sends, then increment the global tick counter.  The metrics
sampling that follows the increment only appends to the plotting series and
is outside the embedded state. -/
def tickE (s : SimState) : Except PyExn SimState :=
  match (s.nodes.map Node.id).foldlM phase1Step s with
  | .error e => .error e
  | .ok s1 =>
    let s2 := (s.nodes.map Node.id).foldl
      (fun st i => Node.execute_pending_requests st i s1.time) s1
    .ok {s2 with time := s2.time + 1}

/-- `Packet.__post_init__` from classes.py: bump the class-level counter and
take the new counter value as this packet's id. -/
def Packet.post_init (origin destination : Nat) (id_counter : Nat) : Packet × Nat :=
  let c := id_counter + 1
  ({origin := origin, destination := destination, route := [],
    reached_destination := false, time_in_queue := 0, queue_entry_time := 0,
    departure_time := 0, arrival_time := 0, id := c}, c)

/-- A sequence of packet constructions threading the class-level counter. -/
def mkPackets (reqs : List (Nat × Nat)) (id_counter : Nat) : List Packet × Nat :=
  match reqs with
  | [] => ([], id_counter)
  | (o, d) :: rest =>
    let pc := Packet.post_init o d id_counter
    let rec' := mkPackets rest pc.2
    (pc.1 :: rec'.1, rec'.2)

namespace script

/-- QTable from script.py (the legacy variant): keyed by the triplet
(from_id, destination, to_id). -/
structure QTable where
  q_values : List ((Nat × Nat × Nat) × ℚ)
deriving DecidableEq

/-- `QTable.get` from script.py: dict get with default `0.0`. -/
def QTable.get (qt : QTable) (from_id destination to_id : Nat) : ℚ :=
  (qt.q_values.lookup (from_id, destination, to_id)).getD 0

/-- `QTable.set` from script.py: dict assignment. -/
def QTable.set (qt : QTable) (from_id destination to_id : Nat) (value : ℚ) : QTable :=
  if qt.q_values.any (fun e => e.1 == (from_id, destination, to_id)) then
    ⟨qt.q_values.map (fun e => if e.1 == (from_id, destination, to_id) then (e.1, value) else e)⟩
  else
    ⟨qt.q_values ++ [((from_id, destination, to_id), value)]⟩

/-- Packet from script.py: no timestamp fields, only the `time_in_queue`
counter incremented while waiting behind other packets. -/
structure Packet where
  origin : Nat
  destination : Nat
  route : List Hop
  reached_destination : Bool
  time_in_queue : Int
  id : Nat
deriving DecidableEq

/-- Node from script.py. -/
structure Node where
  id : Nat
  neighbors : List Nat
  queue : List Packet
  q_table : QTable
  pending_requests : List (Packet × Nat)
deriving DecidableEq

/-- In-place update of the node with the given id (script.py variant). -/
def updNode (ns : List Node) (i : Nat) (f : Node → Node) : List Node :=
  ns.map (fun nd => if nd.id == i then f nd else nd)

/-- Follow a neighbor reference to its Q-table (script.py variant); node
references always resolve in the constructed topologies, so the default for
a dangling id is never consulted. -/
def getTable (ns : List Node) (i : Nat) : QTable :=
  ((ns.find? (fun nd => nd.id == i)).map (fun nd => nd.q_table)).getD ⟨[]⟩

end script

/-- Python's `min(lst, key=k)`: the first element with minimal key, `None`
standing for the `ValueError` on an empty sequence. -/
def pyMinBy (key : Nat → ℚ) (l : List Nat) : Option Nat :=
  match l with
  | [] => none
  | x :: xs => some (xs.foldl (fun b n => if key n < key b then n else b) x)

/-- Phase 1 of script.py's `tick` for one node: pop the queue head, discard
it if delivered, otherwise pick the neighbor minimizing the triplet-keyed
Q-value, update the own table with the legacy temporal-difference formula
`new = 0.5·((time_in_queue + 1 + next_estimate) − old)`, increment
`time_in_queue` of every packet left in the queue, and stage the send. -/
def script.tickPhase1Step (ns : List script.Node) (i : Nat) :
    Except PyExn (List script.Node) :=
  match ns.find? (fun nd => nd.id == i) with
  | none => .ok ns
  | some node =>
    match node.queue with
    | [] => .ok ns
    | packet :: rest =>
      if packet.reached_destination then
        .ok (script.updNode ns i (fun nd => {nd with queue := rest}))
      else
        match pyMinBy (fun n => node.q_table.get node.id packet.destination n) node.neighbors with
        | none => .error .valueError
        | some best =>
          let next_node_estimation := (script.getTable ns best).get node.id packet.destination best
          let old_estimation := node.q_table.get node.id packet.destination best
          let new_estimation := (1 / 2 : ℚ) *
            ((packet.time_in_queue + 1 + next_node_estimation) - old_estimation)
          let f : script.Node → script.Node := fun nd =>
            {nd with q_table := nd.q_table.set nd.id packet.destination best new_estimation,
                     queue := rest.map (fun p => {p with time_in_queue := p.time_in_queue + 1}),
                     pending_requests := nd.pending_requests ++ [(packet, best)]}
          .ok (script.updNode ns i f)

-- Concrete states used by witnesses and counterexamples.

/-- Packet arriving at node 1 from node 0 with q = 2, s = 1 (witness for the
Q-update formula). -/
def exPacketC1 : Packet :=
  {origin := 0, destination := 5, route := [⟨0, 1, 2, 3⟩], reached_destination := false,
   time_in_queue := 0, queue_entry_time := 0, departure_time := 2, arrival_time := 0, id := 1}

/-- Sender node with η = 0.5 and stored estimate 1.0 for (5, 1). -/
def exPrevNodeC1 : Node :=
  {id := 0, neighbors := [1], queue := [], q_table := ⟨[((5, 1), 1)]⟩,
   pending_requests := [], learning_rate := 1 / 2}

/-- Receiving node with an empty table, so its bootstrap term t is 0. -/
def exSelfNodeC1 : Node :=
  {id := 1, neighbors := [0], queue := [], q_table := ⟨[]⟩,
   pending_requests := [], learning_rate := 1 / 2}

/-- Two-node world in which `exPacketC1` arrives at node 1 at tick 3. -/
def exStateC1 : SimState := ⟨[exPrevNodeC1, exSelfNodeC1], 3, [], []⟩

/-- A fresh packet from node 0 to node 1 with an empty route. -/
def exPacketC2 : Packet :=
  {origin := 0, destination := 1, route := [], reached_destination := false,
   time_in_queue := 0, queue_entry_time := 0, departure_time := 0, arrival_time := 0, id := 1}

/-- Node 0 holding `exPacketC2`, wired to node 1. -/
def exNode0C2 : Node :=
  {id := 0, neighbors := [1], queue := [exPacketC2], q_table := ⟨[]⟩,
   pending_requests := [], learning_rate := 1 / 2}

/-- Node 1, the destination. -/
def exNode1C2 : Node :=
  {id := 1, neighbors := [0], queue := [], q_table := ⟨[]⟩,
   pending_requests := [], learning_rate := 1 / 2}

/-- Two-node world at tick 0: the packet is delivered within one tick. -/
def exStateC2 : SimState := ⟨[exNode0C2, exNode1C2], 0, [], []⟩

/-- Head packet of the C3 queue. -/
def exPacketC3a : Packet :=
  {origin := 0, destination := 1, route := [], reached_destination := false,
   time_in_queue := 0, queue_entry_time := 0, departure_time := 0, arrival_time := 0, id := 2}

/-- Second packet of the C3 queue, with queue-wait counter 0. -/
def exPacketC3b : Packet :=
  {origin := 0, destination := 1, route := [], reached_destination := false,
   time_in_queue := 0, queue_entry_time := 0, departure_time := 0, arrival_time := 0, id := 3}

/-- Node 0 with two queued packets. -/
def exNode0C3 : Node :=
  {id := 0, neighbors := [1], queue := [exPacketC3a, exPacketC3b], q_table := ⟨[]⟩,
   pending_requests := [], learning_rate := 1 / 2}

/-- Two-node world for the queue-wait counterexample. -/
def exStateC3 : SimState := ⟨[exNode0C3, exNode1C2], 0, [], []⟩

/-- A packet stuck on a node that has no neighbors. -/
def exPacketC4 : Packet :=
  {origin := 0, destination := 1, route := [], reached_destination := false,
   time_in_queue := 0, queue_entry_time := 0, departure_time := 0, arrival_time := 0, id := 4}

/-- A node with zero neighbors and a packet to route. -/
def exNodeC4 : Node :=
  {id := 0, neighbors := [], queue := [exPacketC4], q_table := ⟨[]⟩,
   pending_requests := [], learning_rate := 1 / 2}

/-- One-node world whose only node cannot route anywhere. -/
def exStateC4 : SimState := ⟨[exNodeC4], 0, [], []⟩

/-- A second zero-neighbor world (witness instance, distinct from the
counterexample instance). -/
def exPacketC4w : Packet :=
  {origin := 3, destination := 7, route := [], reached_destination := false,
   time_in_queue := 0, queue_entry_time := 0, departure_time := 0, arrival_time := 0, id := 9}

/-- Zero-neighbor node for the witness instance. -/
def exNodeC4w : Node :=
  {id := 3, neighbors := [], queue := [exPacketC4w], q_table := ⟨[]⟩,
   pending_requests := [], learning_rate := 1 / 2}

/-- A delivered packet used to probe the delivered registry. -/
def exPacketC5 : Packet :=
  {origin := 0, destination := 1, route := [⟨0, 1, 0, 1⟩], reached_destination := true,
   time_in_queue := 0, queue_entry_time := 0, departure_time := 0, arrival_time := 1, id := 7}

/-- Delivered packet with one hop sent at tick 0 and received at tick 3. -/
def exPacketC6a : Packet :=
  {origin := 0, destination := 9, route := [⟨0, 9, 0, 3⟩], reached_destination := true,
   time_in_queue := 0, queue_entry_time := 0, departure_time := 0, arrival_time := 3, id := 10}

/-- Delivered packet with one hop sent at tick 2 and received at tick 6. -/
def exPacketC6b : Packet :=
  {origin := 1, destination := 9, route := [⟨1, 9, 2, 6⟩], reached_destination := true,
   time_in_queue := 0, queue_entry_time := 0, departure_time := 2, arrival_time := 6, id := 11}

/-- script.py node 0 with two queued packets (the second has waited 5
ticks already). -/
def exSNode0 : script.Node :=
  ⟨0, [1], [⟨0, 1, [], false, 0, 20⟩, ⟨0, 1, [], false, 5, 21⟩], ⟨[]⟩, []⟩

/-- script.py node 1. -/
def exSNode1 : script.Node := ⟨1, [0], [], ⟨[]⟩, []⟩

/-- The state `phase1Step exStateC2 0` produces: the packet moved from node
0's queue into its planned sends, headed for node 1. -/
def exStateC2p1 : SimState :=
  ⟨[{id := 0, neighbors := [1], queue := [], q_table := ⟨[]⟩,
     pending_requests := [(exPacketC2, 1)], learning_rate := 1 / 2},
    exNode1C2], 0, [], []⟩

/-- The state one full tick produces from `exStateC2`: the packet was
committed, delivered at node 1 with the terminal hop recorded twice, node
0's estimate for (1, 1) was nudged to 0.5, and the counter advanced. -/
def exStateC2post : SimState :=
  ⟨[{id := 0, neighbors := [1], queue := [], q_table := ⟨[((1, 1), 1 / 2)]⟩,
     pending_requests := [], learning_rate := 1 / 2},
    exNode1C2], 1,
   [{origin := 0, destination := 1,
     route := [⟨0, 1, 0, 1⟩, ⟨0, 1, 0, 1⟩], reached_destination := true,
     time_in_queue := 0, queue_entry_time := 0, departure_time := 0,
     arrival_time := 1, id := 1}], []⟩

-- Helper lemmas about the heap-by-id model.

theorem except_bind_ok {ε α β : Type} (a : α) (f : α → Except ε β) :
    (Except.ok a >>= f : Except ε β) = f a := rfl

theorem except_bind_error {ε α β : Type} (e : ε) (f : α → Except ε β) :
    (Except.error e >>= f : Except ε β) = Except.error e := rfl

/-- Looking up the updated id after an update-by-id finds the updated
element (provided the update preserves ids). -/
theorem find?_upd_self {α : Type} (idOf : α → Nat) {f : α → α} {i : Nat} {ns : List α}
    (hf : ∀ x, idOf (f x) = idOf x) :
    (ns.map (fun x => if idOf x == i then f x else x)).find? (fun x => idOf x == i)
      = (ns.find? (fun x => idOf x == i)).map f := by
  rw [List.find?_map]
  have hcomp : ((fun x => idOf x == i) ∘ fun x => if idOf x == i then f x else x)
      = fun x => idOf x == i := by
    funext x
    by_cases h : (idOf x == i) = true <;> simp [Function.comp, h, hf]
  rw [hcomp]
  cases hfind : ns.find? (fun x => idOf x == i) with
  | none => rfl
  | some a =>
    have ha : (idOf a == i) = true := by simpa using List.find?_some hfind
    simp only [Option.map_some']
    rw [if_pos ha]

/-- Looking up a different id after an update-by-id is unchanged. -/
theorem find?_upd_ne {α : Type} (idOf : α → Nat) {f : α → α} {i j : Nat} {ns : List α}
    (hf : ∀ x, idOf (f x) = idOf x) (hij : j ≠ i) :
    (ns.map (fun x => if idOf x == i then f x else x)).find? (fun x => idOf x == j)
      = ns.find? (fun x => idOf x == j) := by
  rw [List.find?_map]
  have hcomp : ((fun x => idOf x == j) ∘ fun x => if idOf x == i then f x else x)
      = fun x => idOf x == j := by
    funext x
    by_cases h : (idOf x == i) = true <;> simp [Function.comp, h, hf]
  rw [hcomp]
  cases hfind : ns.find? (fun x => idOf x == j) with
  | none => rfl
  | some a =>
    have ha : idOf a = j := by simpa using List.find?_some hfind
    have hne : ¬ (idOf a == i) = true := by simp [ha, hij]
    simp only [Option.map_some']
    rw [if_neg hne]

/-- A projection untouched by the update is unchanged across the whole list. -/
theorem map_proj_upd {α β : Type} (idOf : α → Nat) (g : α → β) {f : α → α} {i : Nat}
    {ns : List α} (hf : ∀ x, g (f x) = g x) :
    (ns.map (fun x => if idOf x == i then f x else x)).map g = ns.map g := by
  rw [List.map_map]
  have hcomp : (g ∘ fun x => if idOf x == i then f x else x) = g := by
    funext x
    by_cases h : (idOf x == i) = true <;> simp [Function.comp, h, hf]
  rw [hcomp]

-- C5 -------------------------------------------------------------------

/-- C5 counterexample: `Metrics.on_delivered` is a plain append, so calling
it twice with the same packet registers packet id 7 twice in the delivered
registry — the registry is not idempotent by packet identity, contradicting
the claim that no packet id ever appears twice. -/
theorem on_delivered_registers_twice :
    (Metrics.on_delivered (Metrics.on_delivered [] exPacketC5) exPacketC5).countP
      (fun p => p.id == 7) = 2 := by decide

/-- C5 (amended): `on_delivered` unconditionally appends the packet to the
delivered registry; it performs no duplicate check, so a repeated call with
the same packet stores it twice. -/
theorem on_delivered_appends :
    (∀ (delivered : List Packet) (p : Packet),
        Metrics.on_delivered delivered p = delivered ++ [p]) ∧
    (∀ (delivered : List Packet) (p : Packet),
        Metrics.on_delivered (Metrics.on_delivered delivered p) p = delivered ++ [p, p]) := by
  constructor
  · intro d p
    rfl
  · intro d p
    simp [Metrics.on_delivered]

-- C6 -------------------------------------------------------------------

/-- C6: `average_delivery_time_so_far` is the arithmetic mean, over all
delivered packets registered so far, of (last hop received − first hop
sent), and it is 0 when nothing has been delivered.  (Every packet the
engine registers has a non-empty route, which is the hypothesis of the
first part; the source's extra filter is then the identity.) -/
theorem average_delivery_time_spec :
    (∀ delivered : List Packet, (∀ p ∈ delivered, p.route ≠ []) →
        Metrics.average_delivery_time_so_far delivered
          = (((delivered.map Metrics.delivery_time).sum : Int) : ℚ) / (delivered.length : ℚ)) ∧
    Metrics.average_delivery_time_so_far [] = 0 := by
  constructor
  · intro d h
    unfold Metrics.average_delivery_time_so_far
    have hfil : d.filter (fun p => !p.route.isEmpty) = d :=
      List.filter_eq_self.mpr (fun p hp => by simpa [List.isEmpty_iff] using h p hp)
    simp only [hfil]
    by_cases he : d.isEmpty
    · rw [if_pos he]
      rw [List.isEmpty_iff] at he
      simp [he]
    · rw [if_neg he]
  · rfl

/-- C6 witness: for delivered packets with hops (sent 0, received 3) and
(sent 2, received 6) the average is (3 + 4)/2 = 3.5. -/
theorem average_delivery_time_witness :
    Metrics.average_delivery_time_so_far [exPacketC6a, exPacketC6b] = 7 / 2 := by
  have h := average_delivery_time_spec.1 [exPacketC6a, exPacketC6b] (by decide)
  rw [h]
  with_unfolding_all rfl

-- C9 -------------------------------------------------------------------

/-- The ids handed out by a run of constructions are consecutive from the
successor of the initial counter. -/
theorem mkPackets_map_id (reqs : List (Nat × Nat)) :
    ∀ c : Nat, (mkPackets reqs c).1.map Packet.id = List.range' (c + 1) reqs.length := by
  induction reqs with
  | nil =>
    intro c
    rfl
  | cons r tl ih =>
    intro c
    cases r with
    | mk o d => simp [mkPackets, Packet.post_init, List.range'_succ, ih]

/-- C9: every sequence of packet constructions yields strictly increasing
(and hence globally unique) ids, whatever the starting counter. -/
theorem packet_ids_strictly_increasing (reqs : List (Nat × Nat)) (c : Nat) :
    ((mkPackets reqs c).1.map Packet.id).Pairwise (· < ·) := by
  rw [mkPackets_map_id]
  exact List.pairwise_lt_range' _ _

/-- An update-by-id that preserves a projection leaves the projected view of
every lookup unchanged. -/
theorem find?_upd_proj {α β : Type} (idOf : α → Nat) (g : α → β) {f : α → α} {i j : Nat}
    {ns : List α} (hfid : ∀ x, idOf (f x) = idOf x) (hf : ∀ x, g (f x) = g x) :
    ((ns.map (fun x => if idOf x == i then f x else x)).find? (fun x => idOf x == j)).map g
      = (ns.find? (fun x => idOf x == j)).map g := by
  by_cases hji : j = i
  · subst hji
    rw [find?_upd_self idOf hfid]
    cases ns.find? (fun x => idOf x == j) with
    | none => rfl
    | some a => simp [hf]
  · rw [find?_upd_ne idOf hfid hji]


-- Frame lemmas for the learning block.

/-- `qUpdate` leaves the dereference of every id other than the sender
unchanged. -/
theorem qUpdate_getNode_ne (s : SimState) (selfId prevId : Nat) (packet : Packet)
    (j : Nat) (hj : j ≠ prevId) :
    (qUpdate s selfId prevId packet).getNode j = s.getNode j := by
  unfold qUpdate
  split
  · rfl
  · split
    · unfold SimState.getNode updNode
      dsimp only
      rw [find?_upd_ne Node.id ?hf hj]
      case hf => exact fun x => rfl
    · rfl

/-- `qUpdate` changes no queue: the queue view of every dereference is
unchanged. -/
theorem qUpdate_getNode_queue (s : SimState) (selfId prevId : Nat) (packet : Packet)
    (j : Nat) :
    ((qUpdate s selfId prevId packet).getNode j).map Node.queue
      = (s.getNode j).map Node.queue := by
  unfold qUpdate
  split
  · rfl
  · split
    · unfold SimState.getNode updNode
      dsimp only
      rw [find?_upd_proj Node.id Node.queue ?hfa ?hfb]
      case hfa => exact fun x => rfl
      case hfb => exact fun x => rfl
    · rfl

/-- `qUpdate` changes no queue (list-wide view). -/
theorem qUpdate_map_queue (s : SimState) (selfId prevId : Nat) (packet : Packet) :
    (qUpdate s selfId prevId packet).nodes.map Node.queue = s.nodes.map Node.queue := by
  unfold qUpdate
  split
  · rfl
  · split
    · unfold updNode
      dsimp only
      rw [map_proj_upd Node.id Node.queue ?hf]
      case hf => exact fun x => rfl
    · rfl

/-- `qUpdate` changes no planned-sends list. -/
theorem qUpdate_map_pending (s : SimState) (selfId prevId : Nat) (packet : Packet) :
    (qUpdate s selfId prevId packet).nodes.map Node.pending_requests
      = s.nodes.map Node.pending_requests := by
  unfold qUpdate
  split
  · rfl
  · split
    · unfold updNode
      dsimp only
      rw [map_proj_upd Node.id Node.pending_requests ?hf]
      case hf => exact fun x => rfl
    · rfl

/-- `qUpdate` changes no node id. -/
theorem qUpdate_map_id (s : SimState) (selfId prevId : Nat) (packet : Packet) :
    (qUpdate s selfId prevId packet).nodes.map Node.id = s.nodes.map Node.id := by
  unfold qUpdate
  split
  · rfl
  · split
    · unfold updNode
      dsimp only
      rw [map_proj_upd Node.id Node.id ?hf]
      case hf => exact fun x => rfl
    · rfl

/-- `qUpdate` leaves the tick counter, the delivered registry and the
random stream unchanged. -/
theorem qUpdate_rest (s : SimState) (selfId prevId : Nat) (packet : Packet) :
    (qUpdate s selfId prevId packet).time = s.time ∧
    (qUpdate s selfId prevId packet).delivered = s.delivered ∧
    (qUpdate s selfId prevId packet).rng = s.rng := by
  unfold qUpdate
  split
  · exact ⟨rfl, rfl, rfl⟩
  · split
    · exact ⟨rfl, rfl, rfl⟩
    · exact ⟨rfl, rfl, rfl⟩

-- C1 -------------------------------------------------------------------

/-- C1: when a sender reference is given and the packet's route is
non-empty, `receive` sets the sender's Q-table entry for
(packet.destination, receiving node id) to exactly
`old + η·((q + s + t) − old)` with `q = departure_time − queue_entry_time`,
`s = arrival_time − departure_time` (the arrival time having just been
stamped with the current tick), `t` the receiving node's minimum stored
Q-value for that destination (0 when none), and `η` the sender's learning
rate. -/
theorem receive_updates_sender_qtable
    (s : SimState) (selfId prevId : Nat) (selfNd prevNd : Node)
    (hop : Hop) (packet : Packet) (ct : Int)
    (h1 : s.getNode selfId = some selfNd)
    (h2 : s.getNode prevId = some prevNd)
    (hroute : packet.route ≠ []) :
    ((Node.receive s selfId hop packet ct (some prevId)).getNode prevId).map Node.q_table
      = some (prevNd.q_table.set packet.destination selfId
          (prevNd.q_table.get packet.destination selfId
            + prevNd.learning_rate
              * ((((packet.departure_time - packet.queue_entry_time : Int) : ℚ)
                  + ((ct - packet.departure_time : Int) : ℚ)
                  + selfNd.q_table.get_min_for_destination packet.destination)
                 - prevNd.q_table.get packet.destination selfId))) := by
  have hprev : s.nodes.find? (fun nd => nd.id == prevId) = some prevNd := h2
  have hq : ((qUpdate s selfId prevId {packet with arrival_time := ct}).getNode prevId).map
      Node.q_table
      = some (prevNd.q_table.set packet.destination selfId
          (prevNd.q_table.get packet.destination selfId
            + prevNd.learning_rate
              * ((((packet.departure_time - packet.queue_entry_time : Int) : ℚ)
                  + ((ct - packet.departure_time : Int) : ℚ)
                  + selfNd.q_table.get_min_for_destination packet.destination)
                 - prevNd.q_table.get packet.destination selfId))) := by
    unfold qUpdate
    have hre : ¬ (({packet with arrival_time := ct} : Packet).route.isEmpty = true) := by
      simpa [List.isEmpty_iff] using hroute
    rw [if_neg hre]
    have h1a : s.getNode selfId = some selfNd := h1
    have h2a : s.getNode prevId = some prevNd := h2
    rw [h1a, h2a]
    unfold SimState.getNode updNode
    dsimp only
    rw [find?_upd_self Node.id ?hf]
    case hf => exact fun x => rfl
    rw [hprev]
    rfl
  unfold Node.receive
  dsimp only
  by_cases hd : (selfId == ({packet with arrival_time := ct} : Packet).destination) = true
  · rw [if_pos hd]
    exact hq
  · rw [if_neg hd]
    unfold SimState.getNode updNode
    dsimp only
    rw [find?_upd_proj Node.id Node.q_table ?hfa ?hfb]
    case hfa => exact fun x => rfl
    case hfb => exact fun x => rfl
    exact hq

/-- C1 witness: with q = 2, s = 1, t = 0, η = 0.5 and old = 1.0 the sender's
entry for (5, 1) becomes exactly 2.0. -/
theorem receive_updates_sender_qtable_witness :
    ((Node.receive exStateC1 1 ⟨0, 1, 2, 3⟩ exPacketC1 3 (some 0)).getNode 0).map Node.q_table
      = some ⟨[((5, 1), 2)]⟩ := by
  have h := receive_updates_sender_qtable exStateC1 1 0 exSelfNodeC1 exPrevNodeC1
    ⟨0, 1, 2, 3⟩ exPacketC1 3 (by with_unfolding_all rfl) (by with_unfolding_all rfl)
    (by decide)
  rw [h]
  with_unfolding_all rfl

-- C10 ------------------------------------------------------------------

/-- C10: during an arrival with a sender reference, the only Q-table that
can change is the sender's — the Q-table view of every other node (the
receiving node included) is untouched — and when the arriving packet's
destination is the receiving node no queue in the system changes (the
packet is registered as delivered instead of being enqueued). -/
theorem receive_only_mutates_sender_qtable
    (s : SimState) (selfId prevId : Nat) (hop : Hop) (packet : Packet) (ct : Int) :
    (∀ j, j ≠ prevId →
        ((Node.receive s selfId hop packet ct (some prevId)).getNode j).map Node.q_table
          = (s.getNode j).map Node.q_table) ∧
    (packet.destination = selfId →
        (Node.receive s selfId hop packet ct (some prevId)).nodes.map Node.queue
          = s.nodes.map Node.queue) := by
  constructor
  · intro j hj
    unfold Node.receive
    dsimp only
    by_cases hd : (selfId == ({packet with arrival_time := ct} : Packet).destination) = true
    · rw [if_pos hd]
      have hq := qUpdate_getNode_ne s selfId prevId {packet with arrival_time := ct} j hj
      unfold SimState.getNode at hq ⊢
      dsimp only
      rw [hq]
    · rw [if_neg hd]
      unfold SimState.getNode updNode
      dsimp only
      rw [find?_upd_proj Node.id Node.q_table ?hfa ?hfb]
      case hfa => exact fun x => rfl
      case hfb => exact fun x => rfl
      have := qUpdate_getNode_ne s selfId prevId {packet with arrival_time := ct} j hj
      unfold SimState.getNode at this
      rw [this]
  · intro hdest
    unfold Node.receive
    dsimp only
    have hd : (selfId == ({packet with arrival_time := ct} : Packet).destination) = true := by
      simp [hdest]
    rw [if_pos hd]
    exact qUpdate_map_queue _ _ _ _

/-- C10 witness: a concrete arrival at node 1 from node 0 leaves node 1's
Q-table and (the packet being delivered there) every queue unchanged. -/
theorem receive_only_mutates_sender_qtable_witness :
    ((Node.receive exStateC2 1 ⟨0, 1, 0, 1⟩ exPacketC2 1 (some 0)).getNode 1).map Node.q_table
      = (exStateC2.getNode 1).map Node.q_table ∧
    (Node.receive exStateC2 1 ⟨0, 1, 0, 1⟩ exPacketC2 1 (some 0)).nodes.map Node.queue
      = exStateC2.nodes.map Node.queue := by
  refine ⟨?_, ?_⟩
  · exact (receive_only_mutates_sender_qtable exStateC2 1 0 ⟨0, 1, 0, 1⟩ exPacketC2 1).1
      1 (by decide)
  · exact (receive_only_mutates_sender_qtable exStateC2 1 0 ⟨0, 1, 0, 1⟩ exPacketC2 1).2
      (by decide)

-- C3 -------------------------------------------------------------------

theorem except_map_ok {ε α β : Type} (f : α → β) (a : α) :
    (Except.ok a : Except ε α).map f = .ok (f a) := rfl

/-- C3 counterexample: in simulation.py's decision phase a node with queue
[packet 2, packet 3] pops packet 2 and leaves packet 3's queue-wait counter
at 0 — it is not incremented to 1 as the claim requires (the counter is
deprecated there; queueing delay is derived from `queue_entry_time` and
`departure_time` instead). -/
theorem simulation_phase1_leaves_queue_wait :
    exPacketC3b.time_in_queue = 0 ∧
    (phase1Step exStateC3 0).map
        (fun s1 => (s1.getNode 0).map (fun nd => nd.queue.map (fun p => (p.id, p.time_in_queue))))
      = .ok (some [(3, 0)]) := by
  constructor
  · rfl
  · with_unfolding_all rfl

/-- C3 (amended): only the legacy script.py decision phase increments
`time_in_queue` of every packet left in the queue by exactly one after the
pop; the current simulation.py decision phase leaves the remaining packets
(and their counters) exactly as they were. -/
theorem queue_wait_increment_behavior :
    (∀ (ns : List script.Node) (i : Nat) (node : script.Node) (packet : script.Packet)
        (rest : List script.Packet),
        ns.find? (fun nd => nd.id == i) = some node →
        node.queue = packet :: rest →
        packet.reached_destination = false →
        node.neighbors ≠ [] →
        (script.tickPhase1Step ns i).map
            (fun ns2 => (ns2.find? (fun nd => nd.id == i)).map script.Node.queue)
          = .ok (some (rest.map (fun p => {p with time_in_queue := p.time_in_queue + 1})))) ∧
    (∀ (s : SimState) (i : Nat) (node : Node) (packet : Packet) (rest : List Packet)
        (s1 : SimState),
        s.getNode i = some node →
        node.queue = packet :: rest →
        phase1Step s i = .ok s1 →
        (s1.getNode i).map Node.queue = some rest) := by
  constructor
  · intro ns i node packet rest hfind hq hr hnb
    unfold script.tickPhase1Step
    rw [hfind]
    dsimp only
    rw [hq]
    dsimp only
    rw [if_neg (by simp [hr])]
    obtain ⟨n, tl, hcons⟩ : ∃ n tl, node.neighbors = n :: tl := by
      cases hnbv : node.neighbors with
      | nil => exact absurd hnbv hnb
      | cons a b => exact ⟨a, b, rfl⟩
    rw [hcons]
    unfold pyMinBy
    dsimp only
    rw [except_map_ok]
    unfold script.updNode
    rw [find?_upd_self script.Node.id ?hf]
    case hf => exact fun x => rfl
    rw [hfind]
    rfl
  · intro s i node packet rest s1 hfind hq hstep
    unfold phase1Step at hstep
    rw [hfind] at hstep
    dsimp only at hstep
    rw [hq] at hstep
    dsimp only at hstep
    cases hr : packet.reached_destination with
    | true =>
      rw [hr] at hstep
      rw [if_pos rfl] at hstep
      simp only [Except.ok.injEq] at hstep
      subst hstep
      unfold SimState.getNode updNode
      dsimp only
      rw [find?_upd_self Node.id ?hfa]
      case hfa => exact fun x => rfl
      have hfind2 : List.find? (fun x => x.id == i) s.nodes = some node := hfind
      rw [hfind2]
      rfl
    | false =>
      rw [hr] at hstep
      rw [if_neg Bool.false_ne_true] at hstep
      cases hch : chooseNextE node.q_table packet.destination node.neighbors s.rng with
      | error e =>
        rw [hch] at hstep
        exact absurd hstep (by simp)
      | ok pr =>
        cases pr with
        | mk next rng2 =>
          rw [hch] at hstep
          dsimp only at hstep
          simp only [Except.ok.injEq] at hstep
          subst hstep
          unfold SimState.getNode updNode
          dsimp only
          rw [find?_upd_self Node.id ?hfb]
          case hfb => exact fun x => rfl
          have hfind2 : List.find? (fun x => x.id == i) s.nodes = some node := hfind
          rw [hfind2]
          rfl

/-- C3 witness: in script.py a remaining packet's counter goes from 5 to 6
after a decision step; in simulation.py the state after the decision step on
`exStateC2` has node 0's queue empty (the remainder, here `[]`, unchanged). -/
theorem queue_wait_increment_witness :
    (script.tickPhase1Step [exSNode0, exSNode1] 0).map
        (fun ns2 => (ns2.find? (fun nd => nd.id == 0)).map script.Node.queue)
      = .ok (some [⟨0, 1, [], false, 6, 21⟩]) ∧
    (exStateC2p1.getNode 0).map Node.queue = some [] := by
  constructor
  · have h := queue_wait_increment_behavior.1 [exSNode0, exSNode1] 0 exSNode0
      ⟨0, 1, [], false, 0, 20⟩ [⟨0, 1, [], false, 5, 21⟩]
      (by with_unfolding_all rfl) (by with_unfolding_all rfl) rfl (by decide)
    rw [h]
    with_unfolding_all rfl
  · exact queue_wait_increment_behavior.2 exStateC2 0 exNode0C2 exPacketC2 [] exStateC2p1
      (by with_unfolding_all rfl) rfl (by with_unfolding_all rfl)

-- C4 -------------------------------------------------------------------

/-- C4 counterexample: routing from a zero-neighbor node makes the tick
raise the unhandled empty-selection fault — Python's `ValueError` from
`min()` on the empty list of neighbor scores.  No distinguished
ConfigurationError exists anywhere in the code (`PyExn` enumerates the
exceptions the embedded fragment can produce), so the decision phase does
not fail with one. -/
theorem zero_neighbor_raises_valueerror :
    tickE exStateC4 = .error PyExn.valueError := by
  with_unfolding_all rfl

/-- C4 (amended): whenever the first node of the network has no neighbors
and an undelivered packet at the head of its queue, `tick` crashes with the
generic empty-selection `ValueError` coming from `min(q_values)`, not with a
ConfigurationError (none is defined). -/
theorem zero_neighbor_tick_raises
    (nd : Node) (rest : List Node) (t : Int) (del : List Packet) (rng : List Nat)
    (packet : Packet) (q : List Packet)
    (hnb : nd.neighbors = []) (hq : nd.queue = packet :: q)
    (hr : packet.reached_destination = false) :
    tickE ⟨nd :: rest, t, del, rng⟩ = .error PyExn.valueError := by
  have hstep : phase1Step ⟨nd :: rest, t, del, rng⟩ nd.id = .error PyExn.valueError := by
    unfold phase1Step
    have hfind : SimState.getNode ⟨nd :: rest, t, del, rng⟩ nd.id = some nd := by
      unfold SimState.getNode
      exact List.find?_cons_of_pos _ (by simp)
    rw [hfind]
    dsimp only
    rw [hq]
    dsimp only
    rw [hr]
    rw [if_neg Bool.false_ne_true]
    rw [hnb]
    rfl
  unfold tickE
  dsimp only
  simp only [List.map_cons]
  rw [List.foldlM_cons, hstep, except_bind_error]

/-- C4 witness: a second zero-neighbor configuration, instantiating the
amended theorem at a concrete network. -/
theorem zero_neighbor_tick_raises_witness :
    tickE ⟨[exNodeC4w], 5, [], []⟩ = .error PyExn.valueError :=
  zero_neighbor_tick_raises exNodeC4w [] 5 [] [] exPacketC4w []
    (by with_unfolding_all rfl) (by with_unfolding_all rfl) (by with_unfolding_all rfl)

-- C7 -------------------------------------------------------------------

/-- Zipping a list with its own image pairs every element with its image. -/
theorem zip_self_map {α β : Type} (f : α → β) (l : List α) :
    l.zip (l.map f) = l.map (fun a => (a, f a)) := by
  induction l with
  | nil => rfl
  | cons a tl ih => simp [ih]

/-- Membership in `best_candidates` means: a neighbor whose Q-value is
within epsilon of the minimum neighbor score. -/
theorem mem_bestCandidates {qt : QTable} {d : Nat} {ns : List Nat} {c : Nat}
    (hc : c ∈ bestCandidates qt d ns) :
    c ∈ ns ∧ |qt.get d c - pyMin (ns.map (fun n => qt.get d n))| < epsilon := by
  unfold bestCandidates at hc
  dsimp only at hc
  rw [zip_self_map] at hc
  obtain ⟨nq, hnq, hfst⟩ := List.mem_map.mp hc
  obtain ⟨hmem, hpred⟩ := List.mem_filter.mp hnq
  obtain ⟨n, hn, hnn⟩ := List.mem_map.mp hmem
  subst hnn
  subst hfst
  exact ⟨hn, of_decide_eq_true hpred⟩

/-- A successful next-hop selection returns one of the tied candidates. -/
theorem chooseNextE_ok_mem {qt : QTable} {d : Nat} {ns rng rng2 : List Nat} {c : Nat}
    (h : chooseNextE qt d ns rng = .ok (c, rng2)) : c ∈ bestCandidates qt d ns := by
  unfold chooseNextE at h
  dsimp only at h
  by_cases he : ((ns.map (fun n => qt.get d n)).isEmpty = true)
  · rw [if_pos he] at h
    exact absurd h (by simp)
  · rw [if_neg he] at h
    by_cases hlen : 1 < (bestCandidates qt d ns).length
    · rw [if_pos hlen] at h
      simp only [Except.ok.injEq, Prod.mk.injEq] at h
      obtain ⟨hc, -⟩ := h
      subst hc
      have hpos : 0 < (bestCandidates qt d ns).length := by omega
      have hlt : (rng.headD 0) % (bestCandidates qt d ns).length
          < (bestCandidates qt d ns).length := Nat.mod_lt _ hpos
      rw [List.getD_eq_getElem _ _ hlt]
      exact List.getElem_mem hlt
    · rw [if_neg hlen] at h
      cases hb : bestCandidates qt d ns with
      | nil =>
        rw [hb] at h
        exact absurd h (by simp)
      | cons b tl =>
        rw [hb] at h
        dsimp only at h
        simp only [Except.ok.injEq, Prod.mk.injEq] at h
        obtain ⟨hc, -⟩ := h
        subst hc
        exact List.mem_cons_self b tl

/-- With a unique within-tolerance minimizer the selection is deterministic
and consumes no randomness. -/
theorem chooseNextE_single (qt : QTable) (d : Nat) (ns : List Nat) (rng : List Nat)
    (b : Nat) (hne : ns ≠ []) (hb : bestCandidates qt d ns = [b]) :
    chooseNextE qt d ns rng = .ok (b, rng) := by
  unfold chooseNextE
  dsimp only
  rw [if_neg ?hemp]
  case hemp => simpa [List.isEmpty_iff] using hne
  rw [hb]
  rfl

/-- With several tied candidates the selection picks the draw-indexed tied
candidate and consumes exactly one draw of the stream. -/
theorem chooseNextE_tie (qt : QTable) (d : Nat) (ns : List Nat) (rng : List Nat) (i : Nat)
    (hne : ns ≠ []) (hlen : 1 < (bestCandidates qt d ns).length) :
    chooseNextE qt d ns (i :: rng)
      = .ok ((bestCandidates qt d ns).getD (i % (bestCandidates qt d ns).length) 0, rng) := by
  unfold chooseNextE
  dsimp only
  rw [if_neg ?hemp]
  case hemp => simpa [List.isEmpty_iff] using hne
  rw [if_pos hlen]
  rfl

/-- C7: a successful decision picks a neighbor whose Q-value is within
ε = 1e-6 of the minimum neighbor score; a unique within-tolerance minimizer
is chosen deterministically (the random stream is not consumed); with
several tied candidates the chosen one is the tied candidate indexed by the
next draw modulo the number of ties (so a uniform draw induces a uniform
choice among the tied candidates, and a fixed stream reproduces the
choice), and every tied candidate is reachable by some draw. -/
theorem choose_next_within_tolerance :
    (∀ (qt : QTable) (d : Nat) (ns rng rng2 : List Nat) (c : Nat),
        chooseNextE qt d ns rng = .ok (c, rng2) →
        c ∈ ns ∧ |qt.get d c - pyMin (ns.map (fun n => qt.get d n))| < epsilon) ∧
    (∀ (qt : QTable) (d : Nat) (ns rng : List Nat) (b : Nat),
        ns ≠ [] → bestCandidates qt d ns = [b] →
        chooseNextE qt d ns rng = .ok (b, rng)) ∧
    (∀ (qt : QTable) (d : Nat) (ns rng : List Nat) (i : Nat),
        ns ≠ [] → 1 < (bestCandidates qt d ns).length →
        chooseNextE qt d ns (i :: rng)
          = .ok ((bestCandidates qt d ns).getD
              (i % (bestCandidates qt d ns).length) 0, rng)) ∧
    (∀ (qt : QTable) (d : Nat) (ns rng : List Nat) (c : Nat),
        ns ≠ [] → 1 < (bestCandidates qt d ns).length →
        c ∈ bestCandidates qt d ns →
        ∃ r : Nat, chooseNextE qt d ns (r :: rng) = .ok (c, rng)) := by
  refine ⟨?_, ?_, ?_, ?_⟩
  · intro qt d ns rng rng2 c h
    exact mem_bestCandidates (chooseNextE_ok_mem h)
  · intro qt d ns rng b hne hb
    exact chooseNextE_single qt d ns rng b hne hb
  · intro qt d ns rng i hne hlen
    exact chooseNextE_tie qt d ns rng i hne hlen
  · intro qt d ns rng c hne hlen hc
    refine ⟨(bestCandidates qt d ns).indexOf c, ?_⟩
    rw [chooseNextE_tie qt d ns rng _ hne hlen]
    have hidx : (bestCandidates qt d ns).indexOf c < (bestCandidates qt d ns).length :=
      List.indexOf_lt_length.mpr hc
    rw [Nat.mod_eq_of_lt hidx, List.getD_eq_getElem _ _ hidx, List.getElem_indexOf hidx]

/-- C7 witness: with an empty table both neighbors of [1, 2] tie at 0;
draw 1 picks neighbor 2 (reproducibly), the chosen neighbor is within ε of
the minimum, a unique minimizer (table sending neighbor 2 to score 5) is
picked without consuming the stream, and neighbor 1 is reachable by some
draw. -/
theorem choose_next_within_tolerance_witness :
    (2 ∈ [1, 2] ∧
      |QTable.get ⟨[]⟩ 0 2 - pyMin ([1, 2].map (fun n => QTable.get ⟨[]⟩ 0 n))| < epsilon) ∧
    chooseNextE ⟨[((9, 2), 5)]⟩ 9 [1, 2] [42] = .ok (1, [42]) ∧
    chooseNextE ⟨[]⟩ 0 [1, 2] [1] = .ok (2, []) ∧
    (∃ r : Nat, chooseNextE ⟨[]⟩ 0 [1, 2] (r :: [5]) = .ok (1, [5])) := by
  have hbc : bestCandidates ⟨[]⟩ 0 [1, 2] = [1, 2] := by with_unfolding_all rfl
  have hbc2 : bestCandidates ⟨[((9, 2), 5)]⟩ 9 [1, 2] = [1] := by with_unfolding_all rfl
  refine ⟨?_, ?_, ?_, ?_⟩
  · exact choose_next_within_tolerance.1 ⟨[]⟩ 0 [1, 2] [1] [] 2 (by with_unfolding_all rfl)
  · exact choose_next_within_tolerance.2.1 ⟨[((9, 2), 5)]⟩ 9 [1, 2] [42] 1 (by decide) hbc2
  · have h := choose_next_within_tolerance.2.2.1 ⟨[]⟩ 0 [1, 2] [] 1 (by decide)
      (by rw [hbc]; decide)
    exact h.trans (by with_unfolding_all rfl)
  · exact choose_next_within_tolerance.2.2.2 ⟨[]⟩ 0 [1, 2] [5] 1 (by decide)
      (by rw [hbc]; decide) (by rw [hbc]; decide)

-- Frame lemmas for arrivals and the commit loop.

/-- `receive` never changes the tick counter. -/
theorem receive_time (s : SimState) (selfId : Nat) (hop : Hop) (packet : Packet)
    (ct : Int) (prev : Option Nat) :
    (Node.receive s selfId hop packet ct prev).time = s.time := by
  unfold Node.receive
  dsimp only
  cases prev with
  | none =>
    by_cases hd : (selfId == ({packet with arrival_time := ct} : Packet).destination) = true
    · rw [if_pos hd]
    · rw [if_neg hd]
  | some prevId =>
    by_cases hd : (selfId == ({packet with arrival_time := ct} : Packet).destination) = true
    · rw [if_pos hd]
      exact (qUpdate_rest s selfId prevId _).1
    · rw [if_neg hd]
      exact (qUpdate_rest s selfId prevId _).1

/-- `receive` never changes any node id. -/
theorem receive_map_id (s : SimState) (selfId : Nat) (hop : Hop) (packet : Packet)
    (ct : Int) (prev : Option Nat) :
    (Node.receive s selfId hop packet ct prev).nodes.map Node.id = s.nodes.map Node.id := by
  unfold Node.receive
  dsimp only
  cases prev with
  | none =>
    by_cases hd : (selfId == ({packet with arrival_time := ct} : Packet).destination) = true
    · rw [if_pos hd]
    · rw [if_neg hd]
      unfold updNode
      rw [map_proj_upd Node.id Node.id ?hfa]
      case hfa => exact fun x => rfl
  | some prevId =>
    by_cases hd : (selfId == ({packet with arrival_time := ct} : Packet).destination) = true
    · rw [if_pos hd]
      exact qUpdate_map_id s selfId prevId _
    · rw [if_neg hd]
      unfold updNode
      rw [map_proj_upd Node.id Node.id ?hfb]
      case hfb => exact fun x => rfl
      exact qUpdate_map_id s selfId prevId _

/-- `receive` never touches any planned-sends list: arrivals cannot
re-plan a send. -/
theorem receive_map_pending (s : SimState) (selfId : Nat) (hop : Hop) (packet : Packet)
    (ct : Int) (prev : Option Nat) :
    (Node.receive s selfId hop packet ct prev).nodes.map Node.pending_requests
      = s.nodes.map Node.pending_requests := by
  unfold Node.receive
  dsimp only
  cases prev with
  | none =>
    by_cases hd : (selfId == ({packet with arrival_time := ct} : Packet).destination) = true
    · rw [if_pos hd]
    · rw [if_neg hd]
      unfold updNode
      rw [map_proj_upd Node.id Node.pending_requests ?hfa]
      case hfa => exact fun x => rfl
  | some prevId =>
    by_cases hd : (selfId == ({packet with arrival_time := ct} : Packet).destination) = true
    · rw [if_pos hd]
      exact qUpdate_map_pending s selfId prevId _
    · rw [if_neg hd]
      unfold updNode
      rw [map_proj_upd Node.id Node.pending_requests ?hfb]
      case hfb => exact fun x => rfl
      exact qUpdate_map_pending s selfId prevId _

/-- One committed send never changes the tick counter. -/
theorem processSend_time (selfId : Nat) (t : Int) (s : SimState) (pr : Packet × Nat) :
    (processSend selfId t s pr).time = s.time :=
  receive_time s pr.2 _ _ _ _

/-- One committed send never changes any node id. -/
theorem processSend_map_id (selfId : Nat) (t : Int) (s : SimState) (pr : Packet × Nat) :
    (processSend selfId t s pr).nodes.map Node.id = s.nodes.map Node.id :=
  receive_map_id s pr.2 _ _ _ _

/-- One committed send never touches any planned-sends list. -/
theorem processSend_map_pending (selfId : Nat) (t : Int) (s : SimState) (pr : Packet × Nat) :
    (processSend selfId t s pr).nodes.map Node.pending_requests
      = s.nodes.map Node.pending_requests :=
  receive_map_pending s pr.2 _ _ _ _

/-- The whole commit loop never changes the tick counter. -/
theorem foldl_processSend_time (selfId : Nat) (t : Int) (l : List (Packet × Nat)) :
    ∀ s : SimState, (l.foldl (processSend selfId t) s).time = s.time := by
  induction l with
  | nil => intro s; rfl
  | cons a tl ih =>
    intro s
    rw [List.foldl_cons, ih, processSend_time]

/-- The whole commit loop never changes any node id. -/
theorem foldl_processSend_map_id (selfId : Nat) (t : Int) (l : List (Packet × Nat)) :
    ∀ s : SimState,
      (l.foldl (processSend selfId t) s).nodes.map Node.id = s.nodes.map Node.id := by
  induction l with
  | nil => intro s; rfl
  | cons a tl ih =>
    intro s
    rw [List.foldl_cons, ih, processSend_map_id]

/-- The whole commit loop never touches any planned-sends list. -/
theorem foldl_processSend_map_pending (selfId : Nat) (t : Int) (l : List (Packet × Nat)) :
    ∀ s : SimState,
      (l.foldl (processSend selfId t) s).nodes.map Node.pending_requests
        = s.nodes.map Node.pending_requests := by
  induction l with
  | nil => intro s; rfl
  | cons a tl ih =>
    intro s
    rw [List.foldl_cons, ih, processSend_map_pending]

-- C8 -------------------------------------------------------------------

/-- C8: after `execute_pending_requests` runs on any state in which the
node exists, that node's planned-sends list is empty.  In the embedded
semantics every arrival in the commit loop is a total operation, so the run
always reaches the final clear; the clear is the last statement of the
method and leaves nothing to re-execute next tick. -/
theorem execute_clears_pending (s : SimState) (selfId : Nat) (t : Int) (nd : Node)
    (h : s.getNode selfId = some nd) :
    ((Node.execute_pending_requests s selfId t).getNode selfId).map Node.pending_requests
      = some [] := by
  unfold Node.execute_pending_requests
  rw [h]
  dsimp only
  unfold SimState.getNode updNode
  dsimp only
  rw [find?_upd_self Node.id ?hf]
  case hf => exact fun x => rfl
  have hid : ((nd.pending_requests.foldl (processSend selfId t) s).nodes.map Node.id)
      = s.nodes.map Node.id := foldl_processSend_map_id selfId t nd.pending_requests s
  have hmem : selfId ∈ s.nodes.map Node.id := by
    have hp := List.find?_some h
    have hmem0 : nd ∈ s.nodes := List.mem_of_find?_eq_some h
    exact List.mem_map.mpr ⟨nd, hmem0, by simpa using hp⟩
  rw [← hid] at hmem
  obtain ⟨x, hx, hxid⟩ := List.mem_map.mp hmem
  have hsome : (((nd.pending_requests.foldl (processSend selfId t) s).nodes.find?
      (fun y => y.id == selfId))).isSome :=
    List.find?_isSome.mpr ⟨x, hx, by simp [hxid]⟩
  obtain ⟨y, hy⟩ := Option.isSome_iff_exists.mp hsome
  rw [hy]
  rfl

/-- C8 witness: executing node 0's single planned send empties its
planned-sends list. -/
theorem execute_clears_pending_witness :
    ((Node.execute_pending_requests exStateC2p1 0 0).getNode 0).map Node.pending_requests
      = some [] :=
  execute_clears_pending exStateC2p1 0 0
    {id := 0, neighbors := [1], queue := [], q_table := ⟨[]⟩,
     pending_requests := [(exPacketC2, 1)], learning_rate := 1 / 2}
    (by with_unfolding_all rfl)

-- Tick-counter lemmas.

/-- A successful decision step never changes the tick counter. -/
theorem phase1Step_time (s : SimState) (i : Nat) (s1 : SimState)
    (h : phase1Step s i = .ok s1) : s1.time = s.time := by
  unfold phase1Step at h
  split at h
  · simp only [Except.ok.injEq] at h
    subst h
    rfl
  · split at h
    · simp only [Except.ok.injEq] at h
      subst h
      rfl
    · split at h
      · simp only [Except.ok.injEq] at h
        subst h
        rfl
      · split at h
        · exact Except.noConfusion h
        · simp only [Except.ok.injEq] at h
          subst h
          rfl

/-- A successful decision phase never changes the tick counter. -/
theorem foldlM_phase1_time (ids : List Nat) :
    ∀ s s1 : SimState, List.foldlM phase1Step s ids = .ok s1 → s1.time = s.time := by
  induction ids with
  | nil =>
    intro s s1 h
    simp only [List.foldlM_nil] at h
    simp only [pure, Except.pure, Except.ok.injEq] at h
    subst h
    rfl
  | cons i tl ih =>
    intro s s1 h
    rw [List.foldlM_cons] at h
    cases hstep : phase1Step s i with
    | error e =>
      rw [hstep] at h
      rw [except_bind_error] at h
      exact Except.noConfusion h
    | ok s3 =>
      rw [hstep] at h
      rw [except_bind_ok] at h
      exact (ih s3 s1 h).trans (phase1Step_time s i s3 hstep)

/-- Executing a node's pending sends never changes the tick counter. -/
theorem execute_time (s : SimState) (selfId : Nat) (t : Int) :
    (Node.execute_pending_requests s selfId t).time = s.time := by
  unfold Node.execute_pending_requests
  cases hg : s.getNode selfId with
  | none => rfl
  | some nd =>
    dsimp only
    exact foldl_processSend_time selfId t nd.pending_requests s

/-- The whole commit phase never changes the tick counter. -/
theorem foldl_execute_time (t : Int) (ids : List Nat) :
    ∀ s : SimState,
      (ids.foldl (fun st i => Node.execute_pending_requests st i t) s).time = s.time := by
  induction ids with
  | nil => intro s; rfl
  | cons i tl ih =>
    intro s
    rw [List.foldl_cons, ih, execute_time]

-- C2 -------------------------------------------------------------------

/-- C2 counterexample: in `exStateC2` the queued packet (id 1) has an empty
route; one call to `tick` delivers it with a route of length 2 — the
terminal hop is appended once by the commit loop and once again by the
delivery branch of `receive` — so the route grows by two hops in a single
tick, refuting "the route grows by at most one Hop per packet per call to
tick". -/
theorem tick_appends_terminal_hop_twice :
    (exStateC2.getNode 0).map (fun nd => nd.queue.map (fun p => (p.id, p.route.length)))
      = some [(1, 0)] ∧
    (tickE exStateC2).map
        (fun s2 => (s2.delivered.map (fun p => (p.id, p.route.length)), s2.time))
      = .ok ([(1, 2)], 1) := by
  constructor
  · with_unfolding_all rfl
  · with_unfolding_all rfl

/-- C2 (amended): the global tick counter is incremented exactly once per
call to `tick`, after the commit phase over all nodes completes; an arrival
never touches any planned-sends list and neither does the whole commit
loop, so a packet that departs at tick T cannot be re-planned within the
same tick; and each committed planned send appends exactly one hop
(sent = T, received = T + 1) to its packet's route — except that on the
delivery tick the terminal hop is appended twice — after which the packet
sits in the next node's queue or in the delivered registry, never in a
planned-sends list. -/
theorem tick_commit_discipline :
    (∀ s s2 : SimState, tickE s = .ok s2 → s2.time = s.time + 1) ∧
    (∀ (s : SimState) (selfId : Nat) (hop : Hop) (packet : Packet) (ct : Int)
        (prev : Option Nat),
        (Node.receive s selfId hop packet ct prev).nodes.map Node.pending_requests
          = s.nodes.map Node.pending_requests) ∧
    (∀ (selfId : Nat) (t : Int) (l : List (Packet × Nat)) (s : SimState),
        (l.foldl (processSend selfId t) s).nodes.map Node.pending_requests
          = s.nodes.map Node.pending_requests) ∧
    (∀ (s : SimState) (selfId : Nat) (t : Int) (packet : Packet) (nextId : Nat) (nd : Node),
        s.getNode nextId = some nd →
        (packet.destination = nextId →
            (processSend selfId t s (packet, nextId)).delivered
              = s.delivered ++ [{packet with
                  departure_time := t, arrival_time := t + 1,
                  reached_destination := true,
                  route := packet.route
                    ++ [⟨selfId, nextId, t, t + 1⟩, ⟨selfId, nextId, t, t + 1⟩]}] ∧
            (processSend selfId t s (packet, nextId)).nodes.map Node.queue
              = s.nodes.map Node.queue) ∧
        (packet.destination ≠ nextId →
            (processSend selfId t s (packet, nextId)).delivered = s.delivered ∧
            ((processSend selfId t s (packet, nextId)).getNode nextId).map Node.queue
              = some (nd.queue ++ [{packet with
                  departure_time := t, arrival_time := t + 1,
                  queue_entry_time := t + 1,
                  route := packet.route ++ [⟨selfId, nextId, t, t + 1⟩]}]))) := by
  refine ⟨?_, ?_, ?_, ?_⟩
  · intro s s2 h
    unfold tickE at h
    cases hp : (s.nodes.map Node.id).foldlM phase1Step s with
    | error e =>
      rw [hp] at h
      exact Except.noConfusion h
    | ok s1 =>
      rw [hp] at h
      dsimp only at h
      simp only [Except.ok.injEq] at h
      subst h
      dsimp only
      rw [foldl_execute_time, foldlM_phase1_time _ _ _ hp]
  · intro s selfId hop packet ct prev
    exact receive_map_pending s selfId hop packet ct prev
  · intro selfId t l s
    exact foldl_processSend_map_pending selfId t l s
  · intro s selfId t packet nextId nd h
    constructor
    · intro hdd
      unfold processSend Node.receive
      dsimp only
      have hd : (nextId == packet.destination) = true := by simp [hdd]
      rw [if_pos hd]
      refine ⟨?_, ?_⟩
      · dsimp only
        rw [(qUpdate_rest s nextId selfId _).2.1]
        unfold Metrics.on_delivered
        simp [List.append_assoc]
      · dsimp only
        exact qUpdate_map_queue s nextId selfId _
    · intro hdd
      unfold processSend Node.receive
      dsimp only
      have hd : ¬ ((nextId == packet.destination) = true) := by
        simp only [beq_iff_eq]
        exact fun hh => hdd hh.symm
      rw [if_neg hd]
      refine ⟨?_, ?_⟩
      · dsimp only
        exact (qUpdate_rest s nextId selfId _).2.1
      · have hq1 : ((qUpdate s nextId selfId
            {packet with
              departure_time := t,
              route := packet.route ++ [⟨selfId, nextId, t, t + 1⟩],
              arrival_time := t + 1}).getNode nextId).map Node.queue = some nd.queue := by
          rw [qUpdate_getNode_queue, h]
          rfl
        cases hgy : (qUpdate s nextId selfId
            {packet with
              departure_time := t,
              route := packet.route ++ [⟨selfId, nextId, t, t + 1⟩],
              arrival_time := t + 1}).getNode nextId with
        | none =>
          rw [hgy] at hq1
          exact absurd hq1 (by simp)
        | some y =>
          rw [hgy] at hq1
          simp only [Option.map_some', Option.some.injEq] at hq1
          unfold SimState.getNode updNode
          dsimp only
          rw [find?_upd_self Node.id ?hf]
          case hf => exact fun x => rfl
          have hgy2 : (qUpdate s nextId selfId
              {packet with
                departure_time := t,
                route := packet.route ++ [⟨selfId, nextId, t, t + 1⟩],
                arrival_time := t + 1}).nodes.find? (fun x => x.id == nextId) = some y := hgy
          rw [hgy2]
          simp only [Option.map_some']
          rw [hq1]

/-- C2 witness: on the two-node network, the tick advances the counter from
0 to 1; the arrival at node 1 and the whole commit loop leave every
planned-sends list unchanged; and committing the planned send of the packet
destined for node 1 registers it with the terminal hop recorded twice. -/
theorem tick_commit_discipline_witness :
    exStateC2post.time = exStateC2.time + 1 ∧
    (Node.receive exStateC2 1 ⟨0, 1, 0, 1⟩ exPacketC2 1 (some 0)).nodes.map
        Node.pending_requests
      = exStateC2.nodes.map Node.pending_requests ∧
    ([(exPacketC2, 1)].foldl (processSend 0 0) exStateC2).nodes.map Node.pending_requests
      = exStateC2.nodes.map Node.pending_requests ∧
    (processSend 0 0 exStateC2 (exPacketC2, 1)).delivered
      = exStateC2.delivered ++ [{exPacketC2 with
          departure_time := 0, arrival_time := 0 + 1,
          reached_destination := true,
          route := exPacketC2.route ++ [⟨0, 1, 0, 0 + 1⟩, ⟨0, 1, 0, 0 + 1⟩]}] := by
  refine ⟨?_, ?_, ?_, ?_⟩
  · exact tick_commit_discipline.1 exStateC2 exStateC2post (by with_unfolding_all rfl)
  · exact tick_commit_discipline.2.1 exStateC2 1 ⟨0, 1, 0, 1⟩ exPacketC2 1 (some 0)
  · exact tick_commit_discipline.2.2.1 0 0 [(exPacketC2, 1)] exStateC2
  · exact ((tick_commit_discipline.2.2.2 exStateC2 0 0 exPacketC2 1 exNode1C2
      (by with_unfolding_all rfl)).1 (by with_unfolding_all rfl)).1
